import Mathlib

/-!
Verification of the claude-3-7-sonnet-starter-pack (TypeScript) repository.

This file gives a shallow embedding in Lean 4 of the parts of the repository
that the verified properties are about:

* the token estimator shared by every CLI (`estimateTokens`),
* the Extended Thinking CLI's thinking-budget / max-tokens validation
  (promptWithExtendedThinking.ts, main),
* the streaming event fold of the Extended Thinking + Streaming CLI
  (promptWithExtendedThinkingAndStreaming.ts, main),
* the weather lookup of the local MCP server example
  (mcpServerLocalExample.ts, getWeather and weatherCodes),
* the Structured Output CLI's structure validation and fallback
  (simpleStructuredOutput.ts, isValidFeedbackAnalysis and main),
* the Bash/Editor agent's file tools and iteration-capped loop
  (the agent script: toolCreateFile, toolStrReplace, runAgent),
* the Extended Output CLI's progress bar (createProgressBar).

JavaScript strings are modelled as Lean `String`, JS numbers at the call
sites under verification are integers and are modelled as `Int`/`Nat`,
functions that can throw are modelled as `Option`/`Except` or as explicit
error results, and the filesystem touched by the agent tools is modelled as
an explicit state (a set of directories and a map from paths to contents).
-/

/-- Token estimator repeated verbatim in every script of the repository
(e.g. promptWithExtendedThinking.ts lines 129-132):
Math.ceil(text.length / 4).  For a natural-number length this exact real
ceiling equals (length + 3) / 4 in natural division; the connection to the
true ceiling is proved in estimateTokens_ceil_and_monotone. -/
def estimateTokens (text : String) : Nat :=
  (text.length + 3) / 4

/-- Validated thinking budget of the Extended Thinking CLI
(promptWithExtendedThinking.ts lines 59-62): budgets below 1024 are clamped
up to 1024. -/
def validatedThinkingBudget (thinkingBudget : Int) : Int :=
  if thinkingBudget < 1024 then 1024 else thinkingBudget

/-- True exactly when the CLI prints the minimum-budget warning
(promptWithExtendedThinking.ts line 60). -/
def budgetWarning (thinkingBudget : Int) : Bool :=
  thinkingBudget < 1024

/-- Validated max-tokens of the Extended Thinking CLI
(promptWithExtendedThinking.ts lines 65-69): after the budget clamp, a
max-tokens that is not strictly greater than the budget is raised to
budget + 1000. -/
def validatedMaxTokens (thinkingBudget maxTokens : Int) : Int :=
  if maxTokens ≤ validatedThinkingBudget thinkingBudget then
    validatedThinkingBudget thinkingBudget + 1000
  else maxTokens

/-- True exactly when the CLI prints the max-tokens warning
(promptWithExtendedThinking.ts line 67). -/
def maxTokensWarning (thinkingBudget maxTokens : Int) : Bool :=
  maxTokens ≤ validatedThinkingBudget thinkingBudget

/-- Streaming events consumed by the Extended Thinking + Streaming CLI
(promptWithExtendedThinkingAndStreaming.ts lines 122-155).  Only the four
event shapes the fold inspects are modelled; the block type carried by
content_block_start is the string tag of the upcoming block. -/
inductive StreamEvent where
  | blockStart (blockType : String)
  | thinkingDelta (thinking : String)
  | textDelta (text : String)
  | blockStop
  deriving DecidableEq, Repr

/-- Mutable accumulators of the streaming loop
(promptWithExtendedThinkingAndStreaming.ts lines 102-106). -/
structure StreamState where
  thinkingContent : String
  responseContent : String
  currentBlockType : Option String
  thinkingTokens : Nat
  responseTokens : Nat
  deriving DecidableEq, Repr

/-- Initial accumulator values (empty strings, null block type, zero
counts). -/
def initialStreamState : StreamState :=
  { thinkingContent := "", responseContent := "", currentBlockType := none,
    thinkingTokens := 0, responseTokens := 0 }

/-- One iteration of the for-await loop over streaming events
(promptWithExtendedThinkingAndStreaming.ts lines 122-155): a
content_block_start records the block type; a thinking_delta appends to the
reasoning accumulator and adds Math.ceil(length/4) to the thinking-token
count; a text_delta does the same for the answer accumulator; a
content_block_stop changes no accumulator.  The same accumulation is
performed by the Extended Output CLI's loop. -/
def streamStep (s : StreamState) : StreamEvent → StreamState
  | .blockStart ty => { s with currentBlockType := some ty }
  | .thinkingDelta t =>
      { s with thinkingContent := s.thinkingContent ++ t,
               thinkingTokens := s.thinkingTokens + estimateTokens t }
  | .textDelta t =>
      { s with responseContent := s.responseContent ++ t,
               responseTokens := s.responseTokens + estimateTokens t }
  | .blockStop => s

/-- The whole streaming loop: fold streamStep over the event sequence. -/
def streamFold (events : List StreamEvent) : StreamState :=
  events.foldl streamStep initialStreamState

theorem ceil_div_four_cast (n : Nat) :
    (((n + 3) / 4 : Nat) : Int) = ⌈(n : ℚ) / 4⌉ := by
  obtain ⟨k, hk⟩ : ∃ k, (n + 3) / 4 = k := ⟨_, rfl⟩
  have h3 : n ≤ 4 * k := by omega
  have h4 : 4 * k < n + 4 := by omega
  have h3q : (n : ℚ) ≤ 4 * (k : ℚ) := by exact_mod_cast h3
  have h4q : 4 * (k : ℚ) < (n : ℚ) + 4 := by exact_mod_cast h4
  rw [hk]
  symm
  rw [Int.ceil_eq_iff]
  push_cast
  constructor
  · rw [lt_div_iff₀ (by norm_num : (0 : ℚ) < 4)]
    linarith
  · rw [div_le_iff₀ (by norm_num : (0 : ℚ) < 4)]
    linarith

/-- C5: for every string, estimateTokens equals the ceiling of length / 4;
the three concrete values of the claim hold; and the estimate is monotone
under string concatenation. -/
theorem estimateTokens_ceil_and_monotone :
    (∀ text : String, (estimateTokens text : Int) = ⌈(text.length : ℚ) / 4⌉) ∧
    estimateTokens "" = 0 ∧
    estimateTokens "abcd" = 1 ∧
    estimateTokens "abcde" = 2 ∧
    (∀ a b : String, estimateTokens a ≤ estimateTokens (a ++ b)) := by
  refine ⟨fun text => ceil_div_four_cast text.length, by decide, by decide, by decide, ?_⟩
  intro a b
  unfold estimateTokens
  rw [String.length_append]
  exact Nat.div_le_div_right (by omega)

/-- C1: the Extended Thinking CLI clamps a thinking budget below 1024 up to
exactly 1024 with a warning; after the clamp, a max-tokens not strictly
greater than the effective budget becomes budget + 1000 with a warning,
while a strictly greater max-tokens is left unchanged; in particular budget
8000 with max-tokens 2000 yields 9000 and max-tokens 10000 is unchanged. -/
theorem extendedThinking_budget_clamp_and_max_raise (b m : Int) :
    (b < 1024 → validatedThinkingBudget b = 1024 ∧ budgetWarning b = true) ∧
    (1024 ≤ b → validatedThinkingBudget b = b ∧ budgetWarning b = false) ∧
    (m ≤ validatedThinkingBudget b →
      validatedMaxTokens b m = validatedThinkingBudget b + 1000 ∧
      maxTokensWarning b m = true) ∧
    (validatedThinkingBudget b < m →
      validatedMaxTokens b m = m ∧ maxTokensWarning b m = false) ∧
    validatedMaxTokens 8000 2000 = 9000 ∧
    validatedMaxTokens 8000 10000 = 10000 := by
  refine ⟨fun h => ?_, fun h => ?_, fun h => ?_, fun h => ?_, by decide, by decide⟩
  · simp [validatedThinkingBudget, budgetWarning, h]
  · simp [validatedThinkingBudget, budgetWarning, not_lt.mpr h]
  · simp [validatedMaxTokens, maxTokensWarning, h]
  · simp [validatedMaxTokens, maxTokensWarning, not_le.mpr h]

/-- Witness for extendedThinking_budget_clamp_and_max_raise, discharging
its hypotheses at the claim's own concrete inputs. -/
theorem extendedThinking_budget_clamp_and_max_raise_witness :
    (validatedThinkingBudget 500 = 1024 ∧ budgetWarning 500 = true) ∧
    (validatedThinkingBudget 8000 = 8000 ∧ budgetWarning 8000 = false) ∧
    (validatedMaxTokens 8000 2000 = validatedThinkingBudget 8000 + 1000 ∧
      maxTokensWarning 8000 2000 = true) ∧
    (validatedMaxTokens 8000 10000 = 10000 ∧ maxTokensWarning 8000 10000 = false) :=
  ⟨(extendedThinking_budget_clamp_and_max_raise 500 0).1 (by decide),
   (extendedThinking_budget_clamp_and_max_raise 8000 0).2.1 (by decide),
   (extendedThinking_budget_clamp_and_max_raise 8000 2000).2.2.1 (by decide),
   (extendedThinking_budget_clamp_and_max_raise 8000 10000).2.2.2.1 (by decide)⟩

/-- C9: folding the synthetic event sequence of the claim from the initial
state accumulates reasoning "abcde" with an incremental thinking-token
estimate of 2, and answer "hi" with a response-token estimate of 1. -/
theorem streaming_fold_accumulation :
    streamFold
      [StreamEvent.blockStart "thinking",
       StreamEvent.thinkingDelta "ab",
       StreamEvent.thinkingDelta "cde",
       StreamEvent.blockStop,
       StreamEvent.blockStart "text",
       StreamEvent.textDelta "hi",
       StreamEvent.blockStop] =
    { thinkingContent := "abcde", responseContent := "hi",
      currentBlockType := some "text",
      thinkingTokens := 2, responseTokens := 1 } := by
  decide

/-- One geocoding match as returned by the geocoding API
(mcpServerLocalExample.ts interface GeocodingResult). -/
structure GeoPlace where
  latitude : ℚ
  longitude : ℚ
  name : String
  country : String

/-- Geocoding response: the results array may be absent. -/
structure GeocodingResult where
  results : Option (List GeoPlace)

/-- Current-conditions payload of the weather API, every field optional
(mcpServerLocalExample.ts interface WeatherApiResponse). -/
structure CurrentWeather where
  temperature_2m : Option ℚ
  relative_humidity_2m : Option Int
  weather_code : Option Nat

/-- Weather API response: the current object may be absent. -/
structure WeatherApiResponse where
  current : Option CurrentWeather

/-- A JavaScript number-or-string value (the WeatherData fields are typed
number | string in the source). -/
inductive NumOrStr where
  | num (q : ℚ)
  | str (s : String)
  deriving DecidableEq, Repr

/-- Result shape of getWeather (mcpServerLocalExample.ts interface
WeatherData); temperature_c is absent from the location-not-found
sentinel, hence optional. -/
structure WeatherData where
  temperature : NumOrStr
  temperature_c : Option NumOrStr
  condition : String
  humidity : String
  alerts : List String
  deriving DecidableEq, Repr

/-- Weather code table of mcpServerLocalExample.ts lines 78-107, keyed by
the numeric WMO weather code. -/
def weatherCodes : Nat → Option String
  | 0 => some "Clear sky"
  | 1 => some "Mainly clear"
  | 2 => some "Partly cloudy"
  | 3 => some "Overcast"
  | 45 => some "Fog"
  | 48 => some "Depositing rime fog"
  | 51 => some "Light drizzle"
  | 53 => some "Moderate drizzle"
  | 55 => some "Dense drizzle"
  | 56 => some "Light freezing drizzle"
  | 57 => some "Dense freezing drizzle"
  | 61 => some "Slight rain"
  | 63 => some "Moderate rain"
  | 65 => some "Heavy rain"
  | 66 => some "Light freezing rain"
  | 67 => some "Heavy freezing rain"
  | 71 => some "Slight snow fall"
  | 73 => some "Moderate snow fall"
  | 75 => some "Heavy snow fall"
  | 77 => some "Snow grains"
  | 80 => some "Slight rain showers"
  | 81 => some "Moderate rain showers"
  | 82 => some "Violent rain showers"
  | 85 => some "Slight snow showers"
  | 86 => some "Heavy snow showers"
  | 95 => some "Thunderstorm"
  | 96 => some "Thunderstorm with slight hail"
  | 99 => some "Thunderstorm with heavy hail"
  | _ => none

/-- Alert generation of mcpServerLocalExample.ts lines 170-182, in source
push order. -/
def alertsOfCode (weatherCode : Nat) : List String :=
  (if 95 ≤ weatherCode then ["Thunderstorm Warning"] else []) ++
  (if weatherCode = 65 ∨ weatherCode = 67 ∨ weatherCode = 82 then
    ["Heavy Rain Warning"] else []) ++
  (if weatherCode = 75 ∨ weatherCode = 86 then ["Heavy Snow Warning"] else []) ++
  (if weatherCode = 56 ∨ weatherCode = 57 ∨ weatherCode = 66 ∨ weatherCode = 67 then
    ["Freezing Precipitation Warning"] else [])

/-- Humidity rendering of mcpServerLocalExample.ts line 196: the template
string uses current.relative_humidity_2m || "Unknown", so an absent value
and the falsy value 0 both render as "Unknown", and a percent sign is
always appended. -/
def humidityString (h : Option Int) : String :=
  (match h with
   | some v => if v = 0 then "Unknown" else toString v
   | none => "Unknown") ++ "%"

/-- Interpretation of a current-conditions object
(mcpServerLocalExample.ts lines 163-198): current.weather_code || 0 treats
an absent code as 0 (and 0 as 0); the condition falls back to "Unknown"
for codes outside weatherCodes; Fahrenheit = Celsius * 9 / 5 + 32 when the
Celsius value is a number, otherwise the string "Unknown". -/
def interpretCurrentWeather (current : CurrentWeather) : WeatherData :=
  let weatherCode := current.weather_code.getD 0
  let condition := (weatherCodes weatherCode).getD "Unknown"
  let alerts := alertsOfCode weatherCode
  let tempF : NumOrStr :=
    match current.temperature_2m with
    | some c => .num (c * 9 / 5 + 32)
    | none => .str "Unknown"
  { temperature := tempF,
    temperature_c := current.temperature_2m.map .num,
    condition := condition,
    humidity := humidityString current.relative_humidity_2m,
    alerts := alerts }

/-- Sentinel returned when the geocoding results list is absent or empty
(mcpServerLocalExample.ts lines 145-152); note it carries no temperature_c
field. -/
def locationNotFound : WeatherData :=
  { temperature := .str "Unknown", temperature_c := none,
    condition := "Location not found", humidity := "Unknown", alerts := [] }

/-- Sentinel returned by the catch block of getWeather
(mcpServerLocalExample.ts lines 199-208). -/
def serviceUnavailable : WeatherData :=
  { temperature := .str "Error", temperature_c := some (.str "Error"),
    condition := "Service unavailable", humidity := "Unknown",
    alerts := ["Weather service unavailable"] }

/-- The getWeather flow (mcpServerLocalExample.ts lines 138-209).  The two
network-and-parse steps are passed in as Except values: an error value
stands for a fetch or JSON-parse failure at that step, which the source's
try/catch converts into the serviceUnavailable sentinel.  The function is
total: every input yields a WeatherData value, which is the embedding of
"this utility never raises to its caller". -/
def getWeather (geo : Except Unit GeocodingResult)
    (weather : Except Unit WeatherApiResponse) : WeatherData :=
  match geo with
  | .error _ => serviceUnavailable
  | .ok geoData =>
    match geoData.results with
    | none => locationNotFound
    | some [] => locationNotFound
    | some (_ :: _) =>
      match weather with
      | .error _ => serviceUnavailable
      | .ok weatherData =>
        interpretCurrentWeather (weatherData.current.getD ⟨none, none, none⟩)

theorem alertsOfCode_unmapped (c : Nat) (h : weatherCodes c = none) :
    alertsOfCode c = if 95 ≤ c then ["Thunderstorm Warning"] else [] := by
  have h56 : c ≠ 56 := by rintro rfl; revert h; decide
  have h57 : c ≠ 57 := by rintro rfl; revert h; decide
  have h65 : c ≠ 65 := by rintro rfl; revert h; decide
  have h66 : c ≠ 66 := by rintro rfl; revert h; decide
  have h67 : c ≠ 67 := by rintro rfl; revert h; decide
  have h75 : c ≠ 75 := by rintro rfl; revert h; decide
  have h82 : c ≠ 82 := by rintro rfl; revert h; decide
  have h86 : c ≠ 86 := by rintro rfl; revert h; decide
  by_cases hc : 95 ≤ c <;>
    simp [alertsOfCode, hc, h56, h57, h65, h66, h67, h75, h82, h86]

/-- C3 counterexample: weather code 97 is not in the lookup table, so its
condition is "Unknown", yet its alerts list is not empty — the
thunderstorm rule (code ≥ 95) fires for unmapped codes too, refuting the
claim that any code outside the table yields an empty alerts list. -/
theorem weather_unmapped_code_alerts_counterexample :
    weatherCodes 97 = none ∧
    (interpretCurrentWeather ⟨none, none, some 97⟩).condition = "Unknown" ∧
    (interpretCurrentWeather ⟨none, none, some 97⟩).alerts =
      ["Thunderstorm Warning"] ∧
    (interpretCurrentWeather ⟨none, none, some 97⟩).alerts ≠ [] := by
  refine ⟨by decide, by decide, by decide, by decide⟩

/-- C3 amended: code 0 maps to "Clear sky", 95 to "Thunderstorm", 67 to
"Heavy freezing rain" with both the heavy-rain and freezing-precipitation
warnings, an absent code is treated as 0; any code outside the lookup
table maps to condition "Unknown", and such a code yields an empty alerts
list exactly when it is below 95 (unmapped codes ≥ 95, e.g. 97, still
trigger the Thunderstorm Warning). -/
theorem weather_code_condition_alerts_amended :
    (interpretCurrentWeather ⟨none, none, some 0⟩).condition = "Clear sky" ∧
    (interpretCurrentWeather ⟨none, none, some 95⟩).condition = "Thunderstorm" ∧
    ((interpretCurrentWeather ⟨none, none, some 67⟩).condition =
        "Heavy freezing rain" ∧
      "Heavy Rain Warning" ∈ (interpretCurrentWeather ⟨none, none, some 67⟩).alerts ∧
      "Freezing Precipitation Warning" ∈
        (interpretCurrentWeather ⟨none, none, some 67⟩).alerts) ∧
    ((interpretCurrentWeather ⟨none, none, some 12⟩).condition = "Unknown" ∧
      (interpretCurrentWeather ⟨none, none, some 12⟩).alerts = []) ∧
    (interpretCurrentWeather ⟨none, none, none⟩).condition = "Clear sky" ∧
    (∀ c : Nat, weatherCodes c = none →
      (interpretCurrentWeather ⟨none, none, some c⟩).condition = "Unknown" ∧
      (interpretCurrentWeather ⟨none, none, some c⟩).alerts =
        if 95 ≤ c then ["Thunderstorm Warning"] else []) := by
  refine ⟨by decide, by decide, ⟨by decide, by decide, by decide⟩,
    ⟨by decide, by decide⟩, by decide, ?_⟩
  intro c h
  constructor
  · simp [interpretCurrentWeather, h]
  · simpa [interpretCurrentWeather] using alertsOfCode_unmapped c h

/-- Witness for weather_code_condition_alerts_amended, discharging its
unmapped-code hypothesis at the claim's own example code 12. -/
theorem weather_code_condition_alerts_amended_witness :
    (interpretCurrentWeather ⟨none, none, some 12⟩).condition = "Unknown" ∧
    (interpretCurrentWeather ⟨none, none, some 12⟩).alerts =
      if 95 ≤ 12 then ["Thunderstorm Warning"] else [] :=
  weather_code_condition_alerts_amended.2.2.2.2.2 12 (by decide)

/-- C4: the weather lookup absorbs every failure.  A geocoding failure, or
a weather fetch or parse failure after a successful nonempty geocoding,
yields the serviceUnavailable sentinel (temperature "Error", condition
"Service unavailable", exactly one alert "Weather service unavailable");
an absent or empty geocoding results list yields the locationNotFound
sentinel with exactly the claimed fields; and getWeather is a total
function, so no exception ever propagates to the caller. -/
theorem getWeather_sentinel_no_raise :
    (∀ w, getWeather (Except.error ()) w = serviceUnavailable) ∧
    (∀ w, getWeather (Except.ok ⟨none⟩) w = locationNotFound) ∧
    (∀ w, getWeather (Except.ok ⟨some []⟩) w = locationNotFound) ∧
    (∀ p rest, getWeather (Except.ok ⟨some (p :: rest)⟩) (Except.error ()) =
      serviceUnavailable) ∧
    locationNotFound =
      { temperature := .str "Unknown", temperature_c := none,
        condition := "Location not found", humidity := "Unknown", alerts := [] } ∧
    serviceUnavailable.temperature = .str "Error" ∧
    serviceUnavailable.condition = "Service unavailable" ∧
    serviceUnavailable.alerts = ["Weather service unavailable"] :=
  ⟨fun _ => rfl, fun _ => rfl, fun _ => rfl, fun _ _ => rfl, rfl, rfl, rfl, rfl⟩

/-- A JSON value as produced by JSON.parse: null, boolean, number, string,
array, or object (an ordered list of key-value fields). -/
inductive Json where
  | null
  | bool (b : Bool)
  | num (q : ℚ)
  | str (s : String)
  | arr (elements : List Json)
  | obj (fields : List (String × Json))

/-- Key presence on an object's field list, the embedding of the JS
expression key in item. -/
def jsHasKey (fields : List (String × Json)) (key : String) : Bool :=
  fields.any (fun f => f.1 == key)

/-- Property access data.key of JS: defined on objects, undefined (none)
on every other value, including arrays. -/
def jsField (j : Json) (key : String) : Option Json :=
  match j with
  | .obj fields => (fields.find? (fun f => f.1 == key)).map (fun f => f.2)
  | _ => none

/-- The JS strict comparison data.sentiment === s for a string literal s:
true only when the field is present and is exactly that string. -/
def sentimentIs (j : Json) (s : String) : Bool :=
  match jsField j "sentiment" with
  | some (.str t) => t == s
  | _ => false

/-- Array.isArray applied to a possibly-undefined field value. -/
def isArrayField (o : Option Json) : Bool :=
  match o with
  | some (.arr _) => true
  | _ => false

/-- The every(...) call over the action_items field: false when the field
is not an array (the JS conjunction short-circuits before the call in that
case, so the combined value agrees). -/
def jsEvery (o : Option Json) (p : Json → Bool) : Bool :=
  match o with
  | some (.arr xs) => xs.all p
  | _ => false

/-- Check on one action item (simpleStructuredOutput.ts lines 116-121):
typeof item is object, item is not null, and both keys present.  Arrays
have object typeof but no "team"/"task" keys, so they fail the key
checks; null and non-objects fail the earlier checks. -/
def isActionItem : Json → Bool
  | .obj fields => jsHasKey fields "team" && jsHasKey fields "task"
  | _ => false

/-- The validator of simpleStructuredOutput.ts lines 106-123.  The guard
data-truthy-and-typeof-object admits exactly objects and arrays
(null is falsy); the body then requires the sentiment enum, an array
key_issues, and an array action_items whose members all pass
isActionItem. -/
def isValidFeedbackAnalysis (data : Json) : Bool :=
  match data with
  | .obj _ | .arr _ =>
      (sentimentIs data "positive" || sentimentIs data "negative" ||
        sentimentIs data "neutral") &&
      isArrayField (jsField data "key_issues") &&
      isArrayField (jsField data "action_items") &&
      jsEvery (jsField data "action_items") isActionItem
  | _ => false

/-- Acceptance condition written from the claim's words, for comparison
with the source validator: sentiment is one of the three enum strings,
key_issues is a list, and action_items is a list of objects each carrying
team and task fields. -/
def FeedbackAnalysisSpec (data : Json) : Prop :=
  (jsField data "sentiment" = some (.str "positive") ∨
   jsField data "sentiment" = some (.str "negative") ∨
   jsField data "sentiment" = some (.str "neutral")) ∧
  (∃ issues, jsField data "key_issues" = some (.arr issues)) ∧
  (∃ items, jsField data "action_items" = some (.arr items) ∧
    ∀ item ∈ items, ∃ fields, item = .obj fields ∧
      jsHasKey fields "team" = true ∧ jsHasKey fields "task" = true)

/-- Display outcome of the Structured Output CLI: either the structured
rendering of a validated reply, or the raw-text fallback of the catch
branch. -/
inductive DisplayOutcome where
  | structured (data : Json)
  | rawFallback

/-- Token/cost summary computed by the Structured Output CLI in both its
success branch (lines 161-189) and its fallback branch (lines 198-226),
with the fixed Claude 3.7 Sonnet per-million-token rates. -/
structure TokenSummary where
  promptTokens : Nat
  responseTokens : Nat
  totalTokens : Nat
  inputCost : ℚ
  outputCost : ℚ
  totalCost : ℚ

/-- The summary value both branches construct from the prompt and the raw
text reply. -/
def mkTokenSummary (prompt textResponse : String) : TokenSummary :=
  { promptTokens := estimateTokens prompt,
    responseTokens := estimateTokens textResponse,
    totalTokens := estimateTokens prompt + estimateTokens textResponse,
    inputCost := (estimateTokens prompt : ℚ) * (3 / 1000000),
    outputCost := (estimateTokens textResponse : ℚ) * (15 / 1000000),
    totalCost := (estimateTokens prompt : ℚ) * (3 / 1000000) +
      (estimateTokens textResponse : ℚ) * (15 / 1000000) }

/-- Decision flow of simpleStructuredOutput.ts main, lines 102-227.  The
parsed argument is the outcome of JSON.parse on the text reply (none when
the parse threw).  A parse failure and a validation failure (the thrown
"Invalid response structure") land in the same catch branch, which renders
the raw text and still computes the token summary; the success branch
renders the structured output and computes the same summary. -/
def structuredOutputRun (prompt textResponse : String) (parsed : Option Json) :
    DisplayOutcome × TokenSummary :=
  match parsed with
  | none => (.rawFallback, mkTokenSummary prompt textResponse)
  | some data =>
    if isValidFeedbackAnalysis data then
      (.structured data, mkTokenSummary prompt textResponse)
    else
      (.rawFallback, mkTokenSummary prompt textResponse)

/-- The accepted reply of the claim. -/
def goodFeedbackJson : Json :=
  .obj [("sentiment", .str "positive"), ("key_issues", .arr []),
    ("action_items", .arr [])]

/-- The rejected reply of the claim (invalid sentiment enum value). -/
def greatFeedbackJson : Json :=
  .obj [("sentiment", .str "great"), ("key_issues", .arr []),
    ("action_items", .arr [])]

theorem sentimentIs_eq_true (j : Json) (s : String) :
    sentimentIs j s = true ↔ jsField j "sentiment" = some (.str s) := by
  unfold sentimentIs
  cases h : jsField j "sentiment" with
  | none => simp
  | some v => cases v <;> simp

theorem isArrayField_eq_true (o : Option Json) :
    isArrayField o = true ↔ ∃ xs, o = some (.arr xs) := by
  cases o with
  | none => simp [isArrayField]
  | some v => cases v <;> simp [isArrayField]

theorem isActionItem_eq_true (item : Json) :
    isActionItem item = true ↔ ∃ fields, item = .obj fields ∧
      jsHasKey fields "team" = true ∧ jsHasKey fields "task" = true := by
  cases item <;> simp [isActionItem]

theorem arr_every_iff (o : Option Json) (p : Json → Bool) :
    (isArrayField o = true ∧ jsEvery o p = true) ↔
      ∃ xs, o = some (.arr xs) ∧ ∀ x ∈ xs, p x = true := by
  cases o with
  | none => simp [isArrayField, jsEvery]
  | some v => cases v <;> simp [isArrayField, jsEvery, List.all_eq_true]

theorem isValidFeedbackAnalysis_iff_spec (data : Json) :
    isValidFeedbackAnalysis data = true ↔ FeedbackAnalysisSpec data := by
  cases data with
  | null => simp [isValidFeedbackAnalysis, FeedbackAnalysisSpec, jsField]
  | bool b => simp [isValidFeedbackAnalysis, FeedbackAnalysisSpec, jsField]
  | num q => simp [isValidFeedbackAnalysis, FeedbackAnalysisSpec, jsField]
  | str s => simp [isValidFeedbackAnalysis, FeedbackAnalysisSpec, jsField]
  | arr xs => simp [isValidFeedbackAnalysis, FeedbackAnalysisSpec, jsField,
      sentimentIs]
  | obj fields =>
    constructor
    · intro h
      simp only [isValidFeedbackAnalysis, Bool.and_eq_true, Bool.or_eq_true] at h
      obtain ⟨⟨⟨hs, hk⟩, ha⟩, he⟩ := h
      refine ⟨?_, (isArrayField_eq_true _).mp hk, ?_⟩
      · rcases hs with (h1 | h1) | h1
        · exact Or.inl ((sentimentIs_eq_true _ _).mp h1)
        · exact Or.inr (Or.inl ((sentimentIs_eq_true _ _).mp h1))
        · exact Or.inr (Or.inr ((sentimentIs_eq_true _ _).mp h1))
      · obtain ⟨items, hi, hall⟩ := (arr_every_iff _ _).mp ⟨ha, he⟩
        exact ⟨items, hi, fun x hx => (isActionItem_eq_true x).mp (hall x hx)⟩
    · rintro ⟨hs, ⟨issues, hk⟩, ⟨items, hi, hall⟩⟩
      simp only [isValidFeedbackAnalysis, Bool.and_eq_true, Bool.or_eq_true]
      have hae := (arr_every_iff (jsField (.obj fields) "action_items")
        isActionItem).mpr
        ⟨items, hi, fun x hx => (isActionItem_eq_true x).mpr (hall x hx)⟩
      refine ⟨⟨⟨?_, (isArrayField_eq_true _).mpr ⟨issues, hk⟩⟩, hae.1⟩, hae.2⟩
      rcases hs with h1 | h1 | h1
      · exact Or.inl (Or.inl ((sentimentIs_eq_true _ _).mpr h1))
      · exact Or.inl (Or.inr ((sentimentIs_eq_true _ _).mpr h1))
      · exact Or.inr ((sentimentIs_eq_true _ _).mpr h1)

/-- C7: the validator accepts a parsed reply exactly when sentiment is one
of the three enum strings, key_issues is a list, and action_items is a
list of objects each carrying team and task; the claim's positive example
is accepted and rendered structured, the "great" example is rejected and
falls back to raw-text display, a JSON parse failure falls back likewise,
and the token/cost summary is produced in both fallback cases. -/
theorem structuredOutput_validation_spec (prompt textResponse : String) :
    isValidFeedbackAnalysis goodFeedbackJson = true ∧
    structuredOutputRun prompt textResponse (some goodFeedbackJson) =
      (.structured goodFeedbackJson, mkTokenSummary prompt textResponse) ∧
    isValidFeedbackAnalysis greatFeedbackJson = false ∧
    structuredOutputRun prompt textResponse (some greatFeedbackJson) =
      (.rawFallback, mkTokenSummary prompt textResponse) ∧
    structuredOutputRun prompt textResponse none =
      (.rawFallback, mkTokenSummary prompt textResponse) ∧
    (∀ data : Json, isValidFeedbackAnalysis data = true ↔
      FeedbackAnalysisSpec data) :=
  ⟨by decide, by rfl, by decide, by rfl, rfl, isValidFeedbackAnalysis_iff_spec⟩

/-- Index of the first occurrence of pat in s, as in the JS indexOf used
by String.prototype.replace and String.prototype.includes; an empty
pattern matches at index 0. -/
def listIndexOf (pat : List Char) : List Char → Option Nat
  | [] => if pat.isPrefixOf ([] : List Char) then some 0 else none
  | c :: t =>
    if pat.isPrefixOf (c :: t) then some 0
    else (listIndexOf pat t).map (fun n => n + 1)

/-- The GetSubstitution step of String.prototype.replace for a plain
string search value (no capture groups): in the replacement text, a
dollar-dollar pair yields a dollar, dollar-ampersand yields the matched
substring, dollar followed by the backquote character (code 96) yields the
part of the subject before the match, dollar followed by the apostrophe
character (code 39) yields the part after the match, and every other
dollar sequence (including dollar-digit, since there are no captures) is
kept literally. -/
def jsGetSubstitution (matched str : List Char) (position : Nat) :
    List Char → List Char
  | [] => []
  | c :: rest =>
    if c = '$' then
      match rest with
      | [] => [c]
      | d :: rest2 =>
        if d = '$' then '$' :: jsGetSubstitution matched str position rest2
        else if d = '&' then matched ++ jsGetSubstitution matched str position rest2
        else if d = Char.ofNat 96 then
          str.take position ++ jsGetSubstitution matched str position rest2
        else if d = Char.ofNat 39 then
          str.drop (position + matched.length) ++
            jsGetSubstitution matched str position rest2
        else c :: jsGetSubstitution matched str position (d :: rest2)
    else c :: jsGetSubstitution matched str position rest

/-- JS s.replace(searchValue, replaceValue) for string arguments: replaces
only the first occurrence, applying GetSubstitution to the replacement
text; the subject is returned unchanged when the search value does not
occur. -/
def jsReplaceFirst (s searchValue replaceValue : String) : String :=
  match listIndexOf searchValue.data s.data with
  | none => s
  | some i =>
    String.mk (s.data.take i ++
      jsGetSubstitution searchValue.data s.data i replaceValue.data ++
      s.data.drop (i + searchValue.data.length))

/-- Literal first-occurrence replacement, written from the claim's words
("replaces exactly the first occurrence of old_str with new_str"), for
comparison with the JS replace semantics. -/
def replaceFirstLiteral (s searchValue replaceValue : String) : String :=
  match listIndexOf searchValue.data s.data with
  | none => s
  | some i =>
    String.mk (s.data.take i ++ replaceValue.data ++
      s.data.drop (i + searchValue.data.length))

/-- JS content.includes(pat). -/
def jsIncludes (s pat : String) : Bool :=
  (listIndexOf pat.data s.data).isSome

/-- The check !s || !s.trim(): true when the string is empty or consists
of whitespace only. -/
def jsBlank (s : String) : Bool :=
  s.data.all Char.isWhitespace

/-- JS s.split(sep) for a single-character separator. -/
def splitOnChar (sep : Char) : List Char → List (List Char)
  | [] => [[]]
  | x :: t =>
    let r := splitOnChar sep t
    if x = sep then [] :: r
    else
      match r with
      | [] => [[x]]
      | h :: t2 => (x :: h) :: t2

/-- JS parts.join(sep) with a slash separator. -/
def joinWithSlash : List String → String
  | [] => ""
  | [p] => p
  | p :: rest => p ++ "/" ++ joinWithSlash rest

/-- The expression path.split(slash).slice(0, -1).join(slash) used by
toolCreateFile for its directory component. -/
def jsDirname (path : String) : String :=
  joinWithSlash (((splitOnChar '/' path.data).map String.mk).dropLast)

/-- Filesystem state touched by the agent's file tools: the set of
existing directories and the files with their contents.  The empty string
stands for the filesystem root, which always exists. -/
structure FileSystem where
  dirs : List String
  files : List (String × String)
  deriving DecidableEq, Repr

/-- Directory existence; the root (empty path after jsDirname of a
top-level absolute path) always exists. -/
def dirExists (fs : FileSystem) (d : String) : Bool :=
  d == "" || fs.dirs.contains d

/-- Content of the file at a path, none when no such file exists. -/
def fileContent (fs : FileSystem) (p : String) : Option String :=
  (fs.files.find? (fun f => f.1 == p)).map (fun f => f.2)

/-- Update-or-append write of one file entry. -/
def setFile (files : List (String × String)) (p content : String) :
    List (String × String) :=
  if files.any (fun f => f.1 == p) then
    files.map (fun f => if f.1 == p then (p, content) else f)
  else files ++ [(p, content)]

/-- All ancestor paths of a slash-separated path, shortest first, as
created by fs.mkdirSync with the recursive option. -/
def pathPrefixes (dir : String) : List String :=
  let parts := (splitOnChar '/' dir.data).map String.mk
  (List.range parts.length).map (fun i => joinWithSlash (parts.take (i + 1)))

/-- fs.mkdirSync(dir, recursive): creates the directory and every missing
ancestor; existing directories are left alone. -/
def mkdirSyncRec (fs : FileSystem) (dir : String) : FileSystem :=
  { fs with dirs :=
      fs.dirs ++ (pathPrefixes dir).filter (fun d => !(fs.dirs.contains d)) }

/-- fs.writeFileSync: succeeds when the file already exists (a real
filesystem guarantees its parent directory exists) or when the parent
directory of the path exists; otherwise throws ENOENT, modelled as an
error value. -/
def writeFileSync (fs : FileSystem) (p content : String) :
    Except String FileSystem :=
  if (fileContent fs p).isSome || dirExists fs (jsDirname p) then
    .ok { fs with files := setFile fs.files p content }
  else .error ("ENOENT: no such file or directory, open " ++ p)

/-- Result value of one agent tool call: a success payload or an error
message, never both (the ToolResult interface of the agent script). -/
inductive ToolResult where
  | ok (result : String)
  | error (message : String)
  deriving DecidableEq, Repr

/-- The literal placeholder root segment substituted with the current
working directory (the agent script, rootPathToReplaceWithCwd). -/
def rootPathToReplaceWithCwd : String := "/repo"

/-- Input record of the create_file tool. -/
structure CreateFileInput where
  reasoning : String
  path : String
  file_text : String

/-- Input record of the str_replace tool. -/
structure StrReplaceInput where
  reasoning : String
  path : String
  old_str : String
  new_str : String

/-- The single-quote character used in the str_replace not-found
message. -/
def singleQuote : String := String.mk [Char.ofNat 39]

/-- toolCreateFile of the agent script (simpleStructuredOutput.ts part
two, lines 472-502): resolves the path by substituting the /repo
placeholder with cwd, rejects a blank resolved path and an empty
directory component, then calls mkdirSync on the directory component of
the RAW path (not the resolved one) and writeFileSync on the resolved
path; a writeFileSync exception is caught and returned as an error
result. -/
def toolCreateFile (cwd : String) (fs : FileSystem)
    (toolInput : CreateFileInput) : FileSystem × ToolResult :=
  let resolvedPath := jsReplaceFirst toolInput.path rootPathToReplaceWithCwd cwd
  if jsBlank resolvedPath then
    (fs, .error "Invalid file path provided: path is empty.")
  else
    let dirname := jsDirname toolInput.path
    if dirname = "" then
      (fs, .error "Invalid file path provided: directory part of the path is empty.")
    else
      let fs1 := mkdirSyncRec fs dirname
      match writeFileSync fs1 resolvedPath toolInput.file_text with
      | .ok fs2 => (fs2, .ok ("File created at " ++ resolvedPath))
      | .error e => (fs1, .error e)

/-- toolStrReplace of the agent script (simpleStructuredOutput.ts part
two, lines 511-553): rejects a blank resolved path, then an empty
old_str, then a missing file; a file whose content does not include
old_str yields a not-found error with the file unchanged; otherwise the
first occurrence is replaced using the JS replace semantics and the
result is written back. -/
def toolStrReplace (cwd : String) (fs : FileSystem)
    (toolInput : StrReplaceInput) : FileSystem × ToolResult :=
  let resolvedPath := jsReplaceFirst toolInput.path rootPathToReplaceWithCwd cwd
  if jsBlank resolvedPath then
    (fs, .error "Invalid file path provided: path is empty.")
  else if toolInput.old_str = "" then
    (fs, .error "No text to replace specified: old_str is empty.")
  else
    match fileContent fs resolvedPath with
    | none =>
      if fs.dirs.contains resolvedPath then
        (fs, .error "EISDIR: illegal operation on a directory, read")
      else
        (fs, .error ("File " ++ resolvedPath ++ " does not exist"))
    | some content =>
      if !(jsIncludes content toolInput.old_str) then
        (fs, .error (singleQuote ++ toolInput.old_str ++ singleQuote ++ " not found in " ++ resolvedPath))
      else
        let newContent := jsReplaceFirst content toolInput.old_str toolInput.new_str
        match writeFileSync fs resolvedPath newContent with
        | .ok fs2 => (fs2, .ok "Text replaced successfully")
        | .error e => (fs, .error e)

/-- Filesystem for the create_file failing input: the working directory
/w exists, the subdirectory /w/sub does not, and no literal /repo tree
exists. -/
def createBugFs : FileSystem := { dirs := ["", "/w"], files := [] }

/-- The create_file call of the failing input: a path rooted at the /repo
placeholder with one intermediate directory. -/
def createBugOut : FileSystem × ToolResult :=
  toolCreateFile "/w" createBugFs
    ⟨"create a file under the repository root", "/repo/sub/f.txt", "x"⟩

/-- C2 (code bug): toolCreateFile computes the directory component of the
RAW path instead of the resolved one.  For the path /repo/sub/f.txt with
working directory /w it therefore mkdirs the literal directory /repo/sub
(outside the working directory) while the write goes to /w/sub/f.txt,
whose parent /w/sub was never created, so the write throws ENOENT and the
tool returns an error: no file is created at the resolved path, no parent
directory of the resolved path is created, and a stray literal /repo/sub
directory is created instead. -/
theorem toolCreateFile_mkdir_on_raw_path_bug :
    createBugOut =
      ({ dirs := ["", "/w", "/repo", "/repo/sub"], files := [] },
       ToolResult.error "ENOENT: no such file or directory, open /w/sub/f.txt") ∧
    fileContent createBugOut.1 "/w/sub/f.txt" = none ∧
    "/repo/sub" ∈ createBugOut.1.dirs ∧
    ¬ "/w/sub" ∈ createBugOut.1.dirs := by
  refine ⟨by decide, by decide, by decide, by decide⟩

/-- Filesystem for the str_replace dollar-pattern counterexample: one
file /w/a.txt with content "abc". -/
def dollarFs : FileSystem := { dirs := ["", "/w"], files := [("/w/a.txt", "abc")] }

/-- The str_replace call whose replacement text contains JS replacement
patterns. -/
def dollarOut : FileSystem × ToolResult :=
  toolStrReplace "/w" dollarFs ⟨"exercise replace", "/w/a.txt", "b", "$&$&"⟩

/-- C6 counterexample: with file content "abc", old_str "b" and new_str
a dollar-ampersand pair repeated twice, the JS replace writes "abbc"
(each dollar-ampersand expands to the matched substring), not the literal
first-occurrence replacement the claim describes, which would write the
new_str text verbatim. -/
theorem toolStrReplace_dollar_pattern_counterexample :
    dollarOut.2 = ToolResult.ok "Text replaced successfully" ∧
    fileContent dollarOut.1 "/w/a.txt" = some "abbc" ∧
    replaceFirstLiteral "abc" "b" "$&$&" = "a$&$&c" ∧
    fileContent dollarOut.1 "/w/a.txt" ≠
      some (replaceFirstLiteral "abc" "b" "$&$&") := by
  refine ⟨by decide, by decide, by decide, by decide⟩

theorem jsGetSubstitution_no_dollar (matched str : List Char) (pos : Nat)
    (repl : List Char) (h : ¬ '$' ∈ repl) :
    jsGetSubstitution matched str pos repl = repl := by
  induction repl with
  | nil => rfl
  | cons c rest ih =>
    have hc : ¬ c = '$' := fun e => h (by simp [e])
    have hr : ¬ '$' ∈ rest := fun m => h (by simp [m])
    rw [jsGetSubstitution.eq_def]
    simp [hc, ih hr]

theorem jsReplaceFirst_eq_literal (s searchValue replaceValue : String)
    (h : ¬ '$' ∈ replaceValue.data) :
    jsReplaceFirst s searchValue replaceValue =
      replaceFirstLiteral s searchValue replaceValue := by
  unfold jsReplaceFirst replaceFirstLiteral
  cases hidx : listIndexOf searchValue.data s.data with
  | none => rfl
  | some i => simp [jsGetSubstitution_no_dollar _ _ _ _ h]

/-- C6 amended: on a non-blank resolved path, str_replace fails with the
InvalidInput message when old_str is empty; fails with the does-not-exist
message when the file is absent; fails with the not-found message and
leaves the state unchanged when old_str does not occur in the content;
and otherwise writes back the content with the first occurrence of
old_str replaced by new_str interpreted under the JS replacement-pattern
rules — which coincides with literal first-occurrence replacement
whenever new_str contains no dollar character. -/
theorem toolStrReplace_amended (cwd : String) (fs : FileSystem)
    (toolInput : StrReplaceInput) :
    (jsBlank (jsReplaceFirst toolInput.path rootPathToReplaceWithCwd cwd) = false →
      toolInput.old_str = "" →
      toolStrReplace cwd fs toolInput =
        (fs, .error "No text to replace specified: old_str is empty.")) ∧
    (jsBlank (jsReplaceFirst toolInput.path rootPathToReplaceWithCwd cwd) = false →
      toolInput.old_str ≠ "" →
      fileContent fs (jsReplaceFirst toolInput.path rootPathToReplaceWithCwd cwd) = none →
      fs.dirs.contains (jsReplaceFirst toolInput.path rootPathToReplaceWithCwd cwd) = false →
      toolStrReplace cwd fs toolInput =
        (fs, .error ("File " ++
          jsReplaceFirst toolInput.path rootPathToReplaceWithCwd cwd ++
          " does not exist"))) ∧
    (∀ content : String,
      jsBlank (jsReplaceFirst toolInput.path rootPathToReplaceWithCwd cwd) = false →
      toolInput.old_str ≠ "" →
      fileContent fs (jsReplaceFirst toolInput.path rootPathToReplaceWithCwd cwd) =
        some content →
      jsIncludes content toolInput.old_str = false →
      toolStrReplace cwd fs toolInput =
        (fs, .error (singleQuote ++ toolInput.old_str ++ singleQuote ++
          " not found in " ++
          jsReplaceFirst toolInput.path rootPathToReplaceWithCwd cwd))) ∧
    (∀ content : String,
      jsBlank (jsReplaceFirst toolInput.path rootPathToReplaceWithCwd cwd) = false →
      toolInput.old_str ≠ "" →
      fileContent fs (jsReplaceFirst toolInput.path rootPathToReplaceWithCwd cwd) =
        some content →
      jsIncludes content toolInput.old_str = true →
      toolStrReplace cwd fs toolInput =
        ({ fs with files := setFile fs.files (jsReplaceFirst toolInput.path rootPathToReplaceWithCwd cwd) (jsReplaceFirst content toolInput.old_str toolInput.new_str) },
         .ok "Text replaced successfully")) ∧
    (∀ content : String, ¬ '$' ∈ toolInput.new_str.data →
      jsReplaceFirst content toolInput.old_str toolInput.new_str =
        replaceFirstLiteral content toolInput.old_str toolInput.new_str) := by
  refine ⟨?_, ?_, ?_, ?_, fun content h =>
    jsReplaceFirst_eq_literal content toolInput.old_str toolInput.new_str h⟩
  · intro hblank hold
    simp [toolStrReplace, hblank, hold]
  · intro hblank hold hfile hdir
    have hdir2 : ¬ jsReplaceFirst toolInput.path rootPathToReplaceWithCwd cwd ∈ fs.dirs := by
      simpa using hdir
    simp [toolStrReplace, hblank, hold, hfile, hdir2]
  · intro content hblank hold hfile hinc
    simp [toolStrReplace, hblank, hold, hfile, hinc]
  · intro content hblank hold hfile hinc
    simp [toolStrReplace, writeFileSync, hblank, hold, hfile, hinc]

/-- Witness for toolStrReplace_amended, discharging the hypotheses of
each branch at concrete inputs. -/
theorem toolStrReplace_amended_witness :
    toolStrReplace "/w" dollarFs ⟨"r", "/w/a.txt", "", "x"⟩ =
      (dollarFs, .error "No text to replace specified: old_str is empty.") ∧
    toolStrReplace "/w" createBugFs ⟨"r", "/w/m.txt", "b", "x"⟩ =
      (createBugFs, .error ("File " ++
        jsReplaceFirst "/w/m.txt" rootPathToReplaceWithCwd "/w" ++
        " does not exist")) ∧
    toolStrReplace "/w" dollarFs ⟨"r", "/w/a.txt", "z", "x"⟩ =
      (dollarFs, .error (singleQuote ++ "z" ++ singleQuote ++ " not found in " ++
        jsReplaceFirst "/w/a.txt" rootPathToReplaceWithCwd "/w")) ∧
    toolStrReplace "/w" dollarFs ⟨"r", "/w/a.txt", "b", "x"⟩ =
      ({ dollarFs with files := setFile dollarFs.files (jsReplaceFirst "/w/a.txt" rootPathToReplaceWithCwd "/w") (jsReplaceFirst "abc" "b" "x") },
       .ok "Text replaced successfully") ∧
    jsReplaceFirst "abc" "b" "x" = replaceFirstLiteral "abc" "b" "x" :=
  ⟨(toolStrReplace_amended "/w" dollarFs ⟨"r", "/w/a.txt", "", "x"⟩).1
      (by decide) rfl,
   (toolStrReplace_amended "/w" createBugFs ⟨"r", "/w/m.txt", "b", "x"⟩).2.1
      (by decide) (by decide) (by decide) (by decide),
   (toolStrReplace_amended "/w" dollarFs ⟨"r", "/w/a.txt", "z", "x"⟩).2.2.1 "abc"
      (by decide) (by decide) (by decide) (by decide),
   (toolStrReplace_amended "/w" dollarFs ⟨"r", "/w/a.txt", "b", "x"⟩).2.2.2.1 "abc"
      (by decide) (by decide) (by decide) (by decide),
   (toolStrReplace_amended "/w" dollarFs ⟨"r", "/w/a.txt", "b", "x"⟩).2.2.2.2 "abc"
      (by decide)⟩

/-- One model reply in the agent loop of runAgent: either the API call (or
the processing of its reply) threw — which the loop's catch turns into a
break — or a content array whose tool_use blocks carry the listed tool
names, in order. -/
inductive ModelReply where
  | apiFailure
  | content (toolUses : List String)

/-- The names in the agent's toolFunctions dispatch table (the keys of the
runAgent tool function mapping). -/
def knownToolNames : List String :=
  ["view_file", "create_file", "str_replace", "insert_line", "execute_bash",
   "restart_bash", "complete_task"]

/-- Outcome of the for loop over one reply's tool calls: unknownTool when
a name outside the dispatch table is hit (the thrown unknown-tool error is
caught by the surrounding catch, breaking the loop), otherwise whether
complete_task was reached (processing stops at it). -/
inductive ToolPassOutcome where
  | unknownTool
  | done (isTaskComplete : Bool)

/-- Process the tool calls of one reply in order, mirroring runAgent lines
899-929: each recognized tool is executed and its result appended (tool
side effects are abstracted away here — this model tracks only control
flow), complete_task sets the completion flag and stops, and an
unrecognized name raises. -/
def processToolCalls : List String → ToolPassOutcome
  | [] => .done false
  | n :: rest =>
    if knownToolNames.contains n then
      if n = "complete_task" then .done true
      else processToolCalls rest
    else .unknownTool

/-- The agent while loop (runAgent lines 855-940): while the iteration
count is below the cap and the task is not complete, increment the
counter, obtain the model reply for this iteration, and either break (API
failure, no tool calls, unknown tool) or continue with the updated
completion flag.  Returns the final iteration count and completion
flag. -/
def agentLoopAux (replies : Nat → ModelReply) (maxComputeLoops : Nat)
    (computeIterations : Nat) (isTaskComplete : Bool) : Nat × Bool :=
  if _h : computeIterations < maxComputeLoops ∧ isTaskComplete = false then
    let it := computeIterations + 1
    match replies it with
    | .apiFailure => (it, isTaskComplete)
    | .content toolUses =>
      if toolUses.isEmpty then (it, isTaskComplete)
      else
        match processToolCalls toolUses with
        | .unknownTool => (it, isTaskComplete)
        | .done c => agentLoopAux replies maxComputeLoops it c
  else (computeIterations, isTaskComplete)
termination_by maxComputeLoops - computeIterations
decreasing_by simp_wf; omega

/-- Result of one agent run: final iteration count, completion flag, and
whether the compute-limit report of runAgent lines 942-944 is printed. -/
structure AgentRunResult where
  computeIterations : Nat
  isTaskComplete : Bool
  limitReport : Bool
  deriving DecidableEq, Repr

/-- The whole runAgent control flow relevant to termination: run the loop
from iteration 0 with the completion flag down, then report the compute
limit exactly when the counter reached the cap without completion. -/
def runAgentLoop (replies : Nat → ModelReply) (maxComputeLoops : Nat) :
    AgentRunResult :=
  let r := agentLoopAux replies maxComputeLoops 0 false
  { computeIterations := r.1, isTaskComplete := r.2,
    limitReport := decide (maxComputeLoops ≤ r.1) && !r.2 }

/-- Exit status of the agent script's main: main exits with status 1 only
when runAgent throws; every failure inside the loop is caught there and
turns into a break, so runAgent returns normally on every reply stream
and the process exit status is 0 — in particular when the iteration cap
is hit. -/
def agentMainExitCode (replies : Nat → ModelReply) (maxComputeLoops : Nat) :
    Nat :=
  match runAgentLoop replies maxComputeLoops with
  | _ => 0

theorem processToolCalls_all_known (names : List String)
    (h : ∀ n ∈ names, knownToolNames.contains n = true ∧ n ≠ "complete_task") :
    processToolCalls names = .done false := by
  induction names with
  | nil => rfl
  | cons n rest ih =>
    obtain ⟨hk, hc⟩ := h n (by simp)
    have hm : n ∈ knownToolNames := by simpa using hk
    simp [processToolCalls, hm, hc, ih (fun m hm2 => h m (by simp [hm2]))]

theorem agentLoopAux_runs_to_cap (replies : Nat → ModelReply)
    (maxComputeLoops : Nat)
    (h : ∀ i, ∃ names, replies i = .content names ∧ names ≠ [] ∧
        ∀ n ∈ names, knownToolNames.contains n = true ∧ n ≠ "complete_task") :
    ∀ k it, maxComputeLoops - it = k → it ≤ maxComputeLoops →
      agentLoopAux replies maxComputeLoops it false = (maxComputeLoops, false) := by
  intro k
  induction k with
  | zero =>
    intro it hk hle
    have hit : it = maxComputeLoops := by omega
    subst hit
    rw [agentLoopAux.eq_def]
    simp
  | succ k ih =>
    intro it hk hle
    have hlt : it < maxComputeLoops := by omega
    obtain ⟨names, hr, hne, hall⟩ := h (it + 1)
    rw [agentLoopAux.eq_def]
    simp only [hlt, and_self, dite_true, hr, true_and]
    have hemp : names.isEmpty = false := by
      cases names with
      | nil => exact absurd rfl hne
      | cons a t => rfl
    rw [hemp]
    simp only [Bool.false_eq_true, if_false]
    rw [processToolCalls_all_known names hall]
    exact ih (it + 1) (by omega) (by omega)

/-- C8: when every model reply carries at least one tool call, all of them
recognized and none of them complete_task, the agent loop performs exactly
the configured number of iterations, the task is not complete, the
compute-limit report is printed, and the process exits with status 0. -/
theorem agent_loop_terminates_at_cap (maxComputeLoops : Nat)
    (replies : Nat → ModelReply)
    (h : ∀ i, ∃ names, replies i = .content names ∧ names ≠ [] ∧
        ∀ n ∈ names, knownToolNames.contains n = true ∧ n ≠ "complete_task") :
    runAgentLoop replies maxComputeLoops =
      { computeIterations := maxComputeLoops, isTaskComplete := false,
        limitReport := true } ∧
    agentMainExitCode replies maxComputeLoops = 0 := by
  have hloop := agentLoopAux_runs_to_cap replies maxComputeLoops h
    (maxComputeLoops - 0) 0 rfl (by omega)
  constructor
  · simp [runAgentLoop, hloop]
  · rfl

/-- Witness for agent_loop_terminates_at_cap: a model that always calls
view_file, with cap 3, runs exactly 3 iterations, reports the limit and
exits 0. -/
theorem agent_loop_terminates_at_cap_witness :
    runAgentLoop (fun _ => ModelReply.content ["view_file"]) 3 =
      { computeIterations := 3, isTaskComplete := false, limitReport := true } ∧
    agentMainExitCode (fun _ => ModelReply.content ["view_file"]) 3 = 0 :=
  agent_loop_terminates_at_cap 3 (fun _ => ModelReply.content ["view_file"])
    (fun _ => ⟨["view_file"], rfl, by simp, by
      intro n hn
      simp only [List.mem_singleton] at hn
      subst hn
      exact ⟨by decide, by decide⟩⟩)

/-- The filled bar character of createProgressBar. -/
def fullBlockChar : Char := '█'

/-- The empty bar character of createProgressBar. -/
def lightShadeChar : Char := '░'

/-- JS String.prototype.repeat for a one-character string: throws a
RangeError on a negative count (modelled as none), otherwise yields the
character repeated count times. -/
def jsRepeatChar (c : Char) (count : Int) : Option String :=
  if count < 0 then none
  else some (String.mk (List.replicate count.toNat c))

/-- createProgressBar of the Extended Output CLI (part_001 lines 75-78):
filledLength = Math.floor(percentage / (100 / length)).  Every call site
uses the default length 20, for which 100 / length is exactly 5, so
filledLength is the floor of percentage / 5 (Int.fdiv on an integer
percentage); the bar is the filled character repeated filledLength times
followed by the empty character repeated 20 - filledLength times, and a
negative repeat count makes the JS repeat throw, modelled as none. -/
def createProgressBar (percentage : Int) : Option String :=
  let filledLength := Int.fdiv percentage 5
  match jsRepeatChar fullBlockChar filledLength,
        jsRepeatChar lightShadeChar (20 - filledLength) with
  | some filled, some blank => some (filled ++ blank)
  | _, _ => none

/-- Math.round for a rational argument: the floor of q + 1/2, computed on
the reduced numerator and denominator. -/
def jsRound (q : ℚ) : Int :=
  Int.fdiv (2 * q.num + (q.den : Int)) (2 * (q.den : Int))

/-- The thinking-progress percentage of part_001 lines 209 and 230:
Math.round((thinkingTokens / thinkingBudget) * 100). -/
def thinkingPercentage (thinkingTokens thinkingBudget : Nat) : Int :=
  jsRound ((thinkingTokens : ℚ) / (thinkingBudget : ℚ) * 100)

/-- Justification of the jsRound model: it is exactly the floor of
q + 1/2, the definition of Math.round for finite arguments. -/
theorem jsRound_eq_floor (q : ℚ) : jsRound q = ⌊q + 1 / 2⌋ := by
  have hdpos : 0 < q.den := q.pos
  have hq : q + 1 / 2 =
      ((2 * q.num + (q.den : Int) : Int) : ℚ) / (((2 * q.den : Nat) : Nat) : ℚ) := by
    conv_lhs => rw [← Rat.num_div_den q]
    have hd : ((q.den : ℚ)) ≠ 0 := by positivity
    push_cast
    field_simp
    ring
  unfold jsRound
  rw [Int.fdiv_eq_ediv _ (by positivity), hq, Rat.floor_intCast_div_natCast]
  push_cast
  ring

theorem string_mk_append (l1 l2 : List Char) :
    String.mk l1 ++ String.mk l2 = String.mk (l1 ++ l2) := rfl

theorem string_length_mk (l : List Char) : (String.mk l).length = l.length := rfl

theorem thinkingPercentage_at_2048_1024 : thinkingPercentage 2048 1024 = 200 := by
  have h1 : ((2048 : Nat) : ℚ) / ((1024 : Nat) : ℚ) * 100 = 200 := by
    push_cast; norm_num
  unfold thinkingPercentage
  rw [h1]
  unfold jsRound
  simp [Rat.num_ofNat, Rat.den_ofNat]

/-- C10: for every percentage between 0 and 100 the bar is the filled
character repeated floor(p / 5) times followed by the empty character
repeated 20 - floor(p / 5) times — exactly 20 characters; the function
returns a bar only when floor(p / 5) is at most 20; for p at least 105 it
throws (returns none) because the empty-character repeat count is
negative; and such a percentage is reachable at the call sites, since
the incrementally estimated thinking tokens can exceed the thinking
budget — a stream state with 2048 estimated thinking tokens against the
minimum budget 1024 gives percentage 200, on which the bar throws. -/
theorem createProgressBar_total_range_and_throw :
    (∀ p : Int, 0 ≤ p → p ≤ 100 →
      createProgressBar p = some (String.mk
        (List.replicate (Int.fdiv p 5).toNat fullBlockChar ++
         List.replicate (20 - Int.fdiv p 5).toNat lightShadeChar)) ∧
      (∀ bar, createProgressBar p = some bar → bar.length = 20)) ∧
    (∀ p : Int, ∀ bar, createProgressBar p = some bar → Int.fdiv p 5 ≤ 20) ∧
    (∀ p : Int, 105 ≤ p → createProgressBar p = none) ∧
    (∃ events budget, 1024 ≤ budget ∧
      105 ≤ thinkingPercentage (streamFold events).thinkingTokens budget ∧
      createProgressBar
        (thinkingPercentage (streamFold events).thinkingTokens budget) = none) := by
  refine ⟨?_, ?_, ?_, ?_⟩
  · intro p h0 h100
    have he : Int.fdiv p 5 = p / 5 := Int.fdiv_eq_ediv _ (by norm_num)
    have h1 : ¬ Int.fdiv p 5 < 0 := by rw [he]; omega
    have h2 : ¬ (20 - Int.fdiv p 5) < 0 := by rw [he]; omega
    have heq : createProgressBar p = some (String.mk
        (List.replicate (Int.fdiv p 5).toNat fullBlockChar ++
         List.replicate (20 - Int.fdiv p 5).toNat lightShadeChar)) := by
      unfold createProgressBar jsRepeatChar
      simp [h1, h2, string_mk_append]
    refine ⟨heq, ?_⟩
    intro bar hbar
    rw [heq] at hbar
    obtain rfl : bar = String.mk
        (List.replicate (Int.fdiv p 5).toNat fullBlockChar ++
         List.replicate (20 - Int.fdiv p 5).toNat lightShadeChar) :=
      (Option.some_injective _ hbar).symm
    rw [string_length_mk, List.length_append, List.length_replicate,
      List.length_replicate]
    rw [he] at h1 h2 ⊢
    omega
  · intro p bar hbar
    by_contra hgt
    push_neg at hgt
    have h1 : ¬ Int.fdiv p 5 < 0 := by omega
    have h2 : 20 - Int.fdiv p 5 < 0 := by omega
    unfold createProgressBar jsRepeatChar at hbar
    simp [h1, h2] at hbar
  · intro p h105
    have he : Int.fdiv p 5 = p / 5 := Int.fdiv_eq_ediv _ (by norm_num)
    have h1 : ¬ Int.fdiv p 5 < 0 := by rw [he]; omega
    have h2 : 20 - Int.fdiv p 5 < 0 := by rw [he]; omega
    unfold createProgressBar jsRepeatChar
    simp [h1, h2]
  · have hest : estimateTokens (String.mk (List.replicate 8192 'a')) = 2048 := by
      unfold estimateTokens
      rw [string_length_mk, List.length_replicate]
    have htok : (streamFold
        [StreamEvent.thinkingDelta (String.mk (List.replicate 8192 'a'))]).thinkingTokens
        = 2048 := by
      simp only [streamFold, List.foldl, streamStep, initialStreamState]
      rw [hest]
    refine ⟨[StreamEvent.thinkingDelta (String.mk (List.replicate 8192 'a'))],
      1024, by norm_num, ?_, ?_⟩ <;>
    · rw [htok, thinkingPercentage_at_2048_1024]
      decide

/-- Witness for createProgressBar_total_range_and_throw, discharging its
range and throw hypotheses at concrete percentages. -/
theorem createProgressBar_total_range_and_throw_witness :
    (createProgressBar 42 = some (String.mk
      (List.replicate (Int.fdiv 42 5).toNat fullBlockChar ++
       List.replicate (20 - Int.fdiv 42 5).toNat lightShadeChar)) ∧
     (∀ bar, createProgressBar 42 = some bar → bar.length = 20)) ∧
    createProgressBar 105 = none :=
  ⟨createProgressBar_total_range_and_throw.1 42 (by decide) (by decide),
   createProgressBar_total_range_and_throw.2.2.1 105 (by decide)⟩
